import Mathlib

/-!
# Verification of the message-board core

A shallow embedding of the access-gated, append-only post ledger with batched
content-addressable anchoring implemented by the message-board agent
(the indexed-record revision of the agent class).

Modelling conventions:
* SHA-256 hex digests are modelled by the type `Hash := Nat`; the genesis
  constant (the string of 64 zero hex digits) is modelled by `0`.
* The two ways the code produces a digest - hashing a post together with the
  previous hash (`hashPost`), and rehashing the last hash on flush
  (`crypto.createHash('sha256').update(lastHash)`) - are abstract function
  parameters `hp : Post → Hash → Hash` and `sha : Hash → Hash` of the
  definitions that use them.
* `uploadToIPFS` catches every error internally and returns either an
  object `{hash, url}` or `null`; its outcome is therefore a parameter of
  type `Option IpfsRef` of each operation that uploads.
* The external authorization oracle call `req.domainAcl.checkAgentAccess`
  either resolves to an object carrying a numeric `level` or throws; this is
  the inductive `Oracle`.
* `Date.now()` is passed in as a `now : Nat` parameter.
-/

/-- Hex-string SHA-256 digests, abstracted to natural numbers. -/
abbrev Hash := Nat

/-- The genesis hash constant: the string of 64 zero hex digits, i.e. the
all-zero 256-bit value. -/
def genesisHash : Hash := 0

/-- Result of a successful `uploadToIPFS` call: `{hash, url}`. -/
structure IpfsRef where
  hash : String
  url : String
deriving Repr, DecidableEq

/-- A comment as built by the comment route:
`{id, text, author, authorName, timestamp}`. -/
structure Comment where
  id : Nat
  text : String
  author : String
  authorName : Option String
  timestamp : Nat
deriving Repr, DecidableEq

/-- A post record as built by the post route:
`{id, text, image, author, authorName, timestamp, comments, channel}`. -/
structure Post where
  id : Nat
  text : String
  image : Option String
  author : String
  authorName : Option String
  timestamp : Nat
  comments : List Comment
  channel : Option String
deriving Repr, DecidableEq

/-- A chain link (`chainedPost` in `addPostToBatch`): the post spread together
with `hash`, `previousHash`, `chainIndex`, `userSignature` and the optional
anchor reference `ipfsHash`/`ipfsUrl` attached when the upload succeeds. -/
structure ChainedPost where
  post : Post
  hash : Hash
  previousHash : Hash
  chainIndex : Nat
  userSignature : Option String
  ipfsHash : Option String
  ipfsUrl : Option String
deriving Repr, DecidableEq

/-- Per-domain batcher state held in `this.domainStates`:
`{postChain, lastHash}`. -/
structure DomainState where
  postChain : List ChainedPost
  lastHash : Hash
deriving Repr, DecidableEq

/-- The state a fresh domain starts from: empty chain, genesis `lastHash`
(`this.lastHash = '000...0'`). -/
def initialDomainState : DomainState :=
  { postChain := [], lastHash := genesisHash }

/-- One entry of the batch summary built in `flushBatch`. -/
structure BatchEntry where
  id : Nat
  hash : Hash
  ipfsHash : Option String
  author : String
  timestamp : Nat
deriving Repr, DecidableEq

/-- The batch summary `{posts, chainRoot, count, timestamp}` built in
`flushBatch`. -/
structure BatchSummary where
  posts : List BatchEntry
  chainRoot : Hash
  count : Nat
  timestamp : Nat
deriving Repr, DecidableEq

/-- The summary object `flushBatch` builds from the current chain. -/
def mkBatchSummary (s : DomainState) (now : Nat) : BatchSummary :=
  { posts := s.postChain.map (fun p =>
      { id := p.post.id, hash := p.hash, ipfsHash := p.ipfsHash,
        author := p.post.author, timestamp := p.post.timestamp }),
    chainRoot := s.lastHash,
    count := s.postChain.length,
    timestamp := now }

/-- `flushBatch(domain)`: if the chain is empty, return unchanged. Otherwise
build the batch summary, upload it (outcome `batchIpfs`; `uploadToIPFS` never
throws, so the code after the upload runs whether or not `batchIpfs` is
present), then clear the chain and rehash `lastHash`. -/
def flushBatch (sha : Hash → Hash) (batchIpfs : Option IpfsRef) (now : Nat)
    (s : DomainState) : DomainState × Option BatchSummary :=
  if s.postChain.length = 0 then (s, none)
  else
    let summary := mkBatchSummary s now
    let _ := batchIpfs
    ({ postChain := [], lastHash := sha s.lastHash }, some summary)

/-- `addPostToBatch(post, userSignature, domain)`: hash the post against the
current `lastHash`, build the chained post with `previousHash = lastHash` and
`chainIndex = postChain.length`, attach the anchor reference when the upload
succeeded, push the link, set `lastHash` to the new hash, and flush when the
chain length has reached `batchThreshold`. Returns the chained post and the
resulting state. -/
def addPostToBatch (hp : Post → Hash → Hash) (sha : Hash → Hash)
    (batchThreshold : Nat) (ipfsResult batchIpfs : Option IpfsRef) (now : Nat)
    (post : Post) (userSignature : Option String) (s : DomainState) :
    ChainedPost × DomainState :=
  let hash := hp post s.lastHash
  let chainedPost : ChainedPost :=
    { post := post, hash := hash, previousHash := s.lastHash,
      chainIndex := s.postChain.length, userSignature := userSignature,
      ipfsHash := ipfsResult.map IpfsRef.hash,
      ipfsUrl := ipfsResult.map IpfsRef.url }
  let s1 : DomainState :=
    { postChain := s.postChain ++ [chainedPost], lastHash := hash }
  if batchThreshold ≤ s1.postChain.length then
    (chainedPost, (flushBatch sha batchIpfs now s1).1)
  else
    (chainedPost, s1)

/-- The inputs of one `addPostToBatch` call: the accepted post, the user
signature, the two upload outcomes (the per-post upload and, if a flush
triggers, the batch-summary upload) and the wall clock. -/
structure AddEvent where
  post : Post
  userSignature : Option String
  ipfsResult : Option IpfsRef
  batchIpfs : Option IpfsRef
  now : Nat
deriving Repr, DecidableEq

/-- Run a sequence of `addPostToBatch` calls against a domain state. -/
def runBatch (hp : Post → Hash → Hash) (sha : Hash → Hash)
    (batchThreshold : Nat) : List AddEvent → DomainState → DomainState
  | [], s => s
  | e :: es, s =>
      runBatch hp sha batchThreshold es
        (addPostToBatch hp sha batchThreshold e.ipfsResult e.batchIpfs e.now
          e.post e.userSignature s).2

/-- The chained posts returned by a sequence of `addPostToBatch` calls,
in order. -/
def runBatchLinks (hp : Post → Hash → Hash) (sha : Hash → Hash)
    (batchThreshold : Nat) : List AddEvent → DomainState → List ChainedPost
  | [], _ => []
  | e :: es, s =>
      let r := addPostToBatch hp sha batchThreshold e.ipfsResult e.batchIpfs
        e.now e.post e.userSignature s
      r.1 :: runBatchLinks hp sha batchThreshold es r.2

/-- `chainFrom base chain last`: `chain` is a well-linked hash chain whose
first link has `previousHash = base` and whose running hash ends at `last`
(`last = base` when the chain is empty). -/
def chainFrom (base : Hash) : List ChainedPost → Hash → Prop
  | [], last => last = base
  | l :: rest, last => l.previousHash = base ∧ chainFrom l.hash rest last

/-- A throwaway link used as the `getD` default in theorem statements. -/
def dummyLink : ChainedPost :=
  { post := { id := 0, text := "", image := none, author := "",
              authorName := none, timestamp := 0, comments := [],
              channel := none },
    hash := 0, previousHash := 0, chainIndex := 0, userSignature := none,
    ipfsHash := none, ipfsUrl := none }

/-! ## Chain-shape lemmas for the batcher -/

theorem chainFrom_append {base last : Hash} {chain : List ChainedPost}
    (h : chainFrom base chain last) (l : ChainedPost)
    (hl : l.previousHash = last) : chainFrom base (chain ++ [l]) l.hash := by
  induction chain generalizing base with
  | nil => exact ⟨hl.trans h, rfl⟩
  | cons a rest ih => exact ⟨h.1, ih h.2⟩

theorem chainFrom_consecutive {base last : Hash} {chain : List ChainedPost}
    (h : chainFrom base chain last) :
    ∀ i, i + 1 < chain.length →
      (chain.getD (i + 1) dummyLink).previousHash
        = (chain.getD i dummyLink).hash := by
  induction chain generalizing base with
  | nil => intro i hi; simp at hi
  | cons a rest ih =>
    intro i hi
    cases i with
    | zero =>
      cases rest with
      | nil => simp at hi
      | cons b rest2 => simpa using h.2.1
    | succ j =>
      have hj : j + 1 < rest.length := by
        simpa using Nat.lt_of_succ_lt_succ hi
      simpa using ih h.2 j hj

theorem chainFrom_head {base last : Hash} {chain : List ChainedPost}
    (h : chainFrom base chain last) (hne : chain ≠ []) :
    (chain.headD dummyLink).previousHash = base := by
  cases chain with
  | nil => exact absurd rfl hne
  | cons a rest => simpa using h.1

/-- The chained post that `addPostToBatch` builds, named for use in theorem
statements. -/
def mkLink (hp : Post → Hash → Hash) (ipfsResult : Option IpfsRef)
    (post : Post) (userSignature : Option String) (s : DomainState) :
    ChainedPost :=
  { post := post, hash := hp post s.lastHash, previousHash := s.lastHash,
    chainIndex := s.postChain.length, userSignature := userSignature,
    ipfsHash := ipfsResult.map IpfsRef.hash,
    ipfsUrl := ipfsResult.map IpfsRef.url }

/-- `addPostToBatch`, unfolded: it returns the new link, appends it, sets
`lastHash` to the link's hash, and flushes exactly when the grown chain has
reached the threshold. -/
theorem addPostToBatch_eq (hp : Post → Hash → Hash) (sha : Hash → Hash)
    (batchThreshold : Nat) (ipfsResult batchIpfs : Option IpfsRef) (now : Nat)
    (post : Post) (userSignature : Option String) (s : DomainState) :
    addPostToBatch hp sha batchThreshold ipfsResult batchIpfs now post
        userSignature s
      = (mkLink hp ipfsResult post userSignature s,
         if batchThreshold ≤ s.postChain.length + 1 then
           { postChain := [], lastHash := sha (hp post s.lastHash) }
         else
           { postChain := s.postChain ++
               [mkLink hp ipfsResult post userSignature s],
             lastHash := hp post s.lastHash }) := by
  simp only [addPostToBatch, flushBatch, mkLink, List.length_append,
    List.length_cons, List.length_nil, Nat.zero_add]
  split
  · rw [if_neg (by omega : ¬s.postChain.length + 1 = 0)]
  · rfl

/-- Every reachable batcher state is a well-linked chain from some base. -/
theorem addPostToBatch_chainFrom (hp : Post → Hash → Hash) (sha : Hash → Hash)
    (batchThreshold : Nat) (ipfsResult batchIpfs : Option IpfsRef) (now : Nat)
    (post : Post) (userSignature : Option String) (s : DomainState)
    {base : Hash} (h : chainFrom base s.postChain s.lastHash) :
    ∃ b, chainFrom b
      (addPostToBatch hp sha batchThreshold ipfsResult batchIpfs now post
          userSignature s).2.postChain
      (addPostToBatch hp sha batchThreshold ipfsResult batchIpfs now post
          userSignature s).2.lastHash := by
  rw [addPostToBatch_eq]
  by_cases hc : batchThreshold ≤ s.postChain.length + 1
  · rw [if_pos hc]
    exact ⟨sha (hp post s.lastHash), rfl⟩
  · rw [if_neg hc]
    exact ⟨base, chainFrom_append h _ rfl⟩

theorem runBatch_chainFrom (hp : Post → Hash → Hash) (sha : Hash → Hash)
    (batchThreshold : Nat) (es : List AddEvent) :
    ∀ s : DomainState, (∃ b, chainFrom b s.postChain s.lastHash) →
      ∃ b, chainFrom b (runBatch hp sha batchThreshold es s).postChain
        (runBatch hp sha batchThreshold es s).lastHash := by
  induction es with
  | nil => intro s hs; exact hs
  | cons e es ih =>
    intro s hs
    obtain ⟨b, hb⟩ := hs
    exact ih _ (addPostToBatch_chainFrom hp sha batchThreshold e.ipfsResult
      e.batchIpfs e.now e.post e.userSignature s hb)

/-- Below the threshold the batcher only appends: the base is preserved and
the chain grows by one per event. -/
theorem runBatch_below (hp : Post → Hash → Hash) (sha : Hash → Hash)
    (batchThreshold : Nat) {base : Hash} :
    ∀ (es : List AddEvent) (s : DomainState),
      chainFrom base s.postChain s.lastHash →
      s.postChain.length + es.length < batchThreshold →
      chainFrom base (runBatch hp sha batchThreshold es s).postChain
          (runBatch hp sha batchThreshold es s).lastHash ∧
        (runBatch hp sha batchThreshold es s).postChain.length
          = s.postChain.length + es.length := by
  intro es
  induction es with
  | nil => intro s hs _; exact ⟨hs, rfl⟩
  | cons e es ih =>
    intro s hs hlen
    simp only [List.length_cons] at hlen
    simp only [runBatch]
    rw [addPostToBatch_eq, if_neg (by omega)]
    have hcf : chainFrom base
        (s.postChain ++ [mkLink hp e.ipfsResult e.post e.userSignature s])
        (mkLink hp e.ipfsResult e.post e.userSignature s).hash :=
      chainFrom_append hs _ rfl
    have hrec := ih
      ⟨s.postChain ++ [mkLink hp e.ipfsResult e.post e.userSignature s],
        hp e.post s.lastHash⟩ hcf
      (by simp only [List.length_append, List.length_cons, List.length_nil]
          omega)
    refine ⟨hrec.1, ?_⟩
    rw [hrec.2]
    simp only [List.length_append, List.length_cons, List.length_nil]
    omega

theorem runBatch_cons (hp : Post → Hash → Hash) (sha : Hash → Hash)
    (batchThreshold : Nat) (e : AddEvent) (es : List AddEvent)
    (s : DomainState) :
    runBatch hp sha batchThreshold (e :: es) s
      = runBatch hp sha batchThreshold es
          (addPostToBatch hp sha batchThreshold e.ipfsResult e.batchIpfs e.now
            e.post e.userSignature s).2 := rfl

theorem runBatchLinks_cons (hp : Post → Hash → Hash) (sha : Hash → Hash)
    (batchThreshold : Nat) (e : AddEvent) (es : List AddEvent)
    (s : DomainState) :
    runBatchLinks hp sha batchThreshold (e :: es) s
      = (addPostToBatch hp sha batchThreshold e.ipfsResult e.batchIpfs e.now
            e.post e.userSignature s).1
        :: runBatchLinks hp sha batchThreshold es
            (addPostToBatch hp sha batchThreshold e.ipfsResult e.batchIpfs
              e.now e.post e.userSignature s).2 := rfl

theorem runBatch_append (hp : Post → Hash → Hash) (sha : Hash → Hash)
    (batchThreshold : Nat) (es1 es2 : List AddEvent) :
    ∀ s, runBatch hp sha batchThreshold (es1 ++ es2) s
      = runBatch hp sha batchThreshold es2
          (runBatch hp sha batchThreshold es1 s) := by
  induction es1 with
  | nil => intro s; rfl
  | cons e es ih =>
    intro s
    rw [List.cons_append, runBatch_cons, runBatch_cons, ih]

theorem runBatchLinks_append (hp : Post → Hash → Hash) (sha : Hash → Hash)
    (batchThreshold : Nat) (es1 es2 : List AddEvent) :
    ∀ s, runBatchLinks hp sha batchThreshold (es1 ++ es2) s
      = runBatchLinks hp sha batchThreshold es1 s
        ++ runBatchLinks hp sha batchThreshold es2
            (runBatch hp sha batchThreshold es1 s) := by
  induction es1 with
  | nil => intro s; rfl
  | cons e es ih =>
    intro s
    rw [List.cons_append, runBatchLinks_cons, runBatchLinks_cons, ih,
      runBatch_cons, List.cons_append]

/-- Every hash carried by a link the batcher ever returned is post-derived:
it is `hp` applied to some post and some previous hash. -/
theorem runBatchLinks_hash (hp : Post → Hash → Hash) (sha : Hash → Hash)
    (batchThreshold : Nat) :
    ∀ (es : List AddEvent) (s : DomainState) (l : ChainedPost),
      l ∈ runBatchLinks hp sha batchThreshold es s → ∃ p h, l.hash = hp p h := by
  intro es
  induction es with
  | nil =>
    intro s l hl
    simp [runBatchLinks] at hl
  | cons e es ih =>
    intro s l hl
    rw [runBatchLinks_cons] at hl
    rcases List.mem_cons.mp hl with h | h
    · exact ⟨e.post, s.lastHash, by rw [h, addPostToBatch_eq]; rfl⟩
    · exact ih _ l h

/-! ## Claim C1: chain integrity -/

/-- C1: the hash chain maintained by the Chain Batcher is well linked: in any
reachable state, `chain[i+1].previousHash = chain[i].hash`; for a fresh
domain whose run stays below the flush threshold, `chain[0].previousHash` is
the genesis constant; and every link built by `addPostToBatch` takes the
current `lastHash` as its `previousHash`, hashes the post against it, and
(when no flush triggers) the state is the old chain plus the new link with
`lastHash` updated to the new link's hash. -/
theorem C1_chain_integrity (hp : Post → Hash → Hash) (sha : Hash → Hash)
    (batchThreshold : Nat) (es : List AddEvent) :
    (∀ i, i + 1 < (runBatch hp sha batchThreshold es
        initialDomainState).postChain.length →
      ((runBatch hp sha batchThreshold es initialDomainState).postChain.getD
          (i + 1) dummyLink).previousHash
        = ((runBatch hp sha batchThreshold es
            initialDomainState).postChain.getD i dummyLink).hash) ∧
    (es.length < batchThreshold →
      (runBatch hp sha batchThreshold es initialDomainState).postChain ≠ [] →
      ((runBatch hp sha batchThreshold es
          initialDomainState).postChain.headD dummyLink).previousHash
        = genesisHash) ∧
    (∀ (ipfsResult batchIpfs : Option IpfsRef) (now : Nat) (post : Post)
        (userSignature : Option String) (s : DomainState),
      (addPostToBatch hp sha batchThreshold ipfsResult batchIpfs now post
          userSignature s).1.previousHash = s.lastHash ∧
      (addPostToBatch hp sha batchThreshold ipfsResult batchIpfs now post
          userSignature s).1.hash = hp post s.lastHash ∧
      (s.postChain.length + 1 < batchThreshold →
        (addPostToBatch hp sha batchThreshold ipfsResult batchIpfs now post
            userSignature s).2
          = { postChain := s.postChain ++
                [(addPostToBatch hp sha batchThreshold ipfsResult batchIpfs
                    now post userSignature s).1],
              lastHash := (addPostToBatch hp sha batchThreshold ipfsResult
                  batchIpfs now post userSignature s).1.hash })) := by
  refine ⟨?_, ?_, ?_⟩
  · intro i hi
    obtain ⟨b, hb⟩ := runBatch_chainFrom hp sha batchThreshold es
      initialDomainState ⟨genesisHash, rfl⟩
    exact chainFrom_consecutive hb i hi
  · intro hlt hne
    have hcond : initialDomainState.postChain.length + es.length
        < batchThreshold := by simpa [initialDomainState] using hlt
    have h := runBatch_below hp sha batchThreshold es initialDomainState rfl
      hcond
    exact chainFrom_head h.1 hne
  · intro ipfsResult batchIpfs now post userSignature s
    rw [addPostToBatch_eq]
    refine ⟨rfl, rfl, ?_⟩
    intro hlt
    rw [if_neg (by omega)]
    rfl

def wHp (p : Post) (h : Hash) : Hash := 2 * (p.id + h) + 1

def wSha (h : Hash) : Hash := 2 * h + 2

def wPostA : Post :=
  { id := 1, text := "p1", image := none, author := "0xaaa",
    authorName := none, timestamp := 100, comments := [], channel := none }

def wPostB : Post :=
  { id := 2, text := "p2", image := none, author := "0xaaa",
    authorName := none, timestamp := 101, comments := [], channel := none }

def wEventA : AddEvent :=
  { post := wPostA, userSignature := none, ipfsResult := none,
    batchIpfs := none, now := 100 }

def wEventB : AddEvent :=
  { post := wPostB, userSignature := none, ipfsResult := none,
    batchIpfs := none, now := 101 }

/-- Witness for C1: two appends with threshold 5 leave a two-link chain whose
second link points at the first and whose first link points at genesis. -/
theorem C1_chain_integrity_witness :
    ((runBatch wHp wSha 5 [wEventA, wEventB]
        initialDomainState).postChain.getD 1 dummyLink).previousHash
      = ((runBatch wHp wSha 5 [wEventA, wEventB]
          initialDomainState).postChain.getD 0 dummyLink).hash ∧
    ((runBatch wHp wSha 5 [wEventA, wEventB]
        initialDomainState).postChain.headD dummyLink).previousHash
      = genesisHash ∧
    (addPostToBatch wHp wSha 5 none none 100 wPostA none
        initialDomainState).1.previousHash = initialDomainState.lastHash := by
  have h := C1_chain_integrity wHp wSha 5 [wEventA, wEventB]
  exact ⟨h.1 0 (by decide), h.2.1 (by decide) (by decide),
    (h.2.2 none none 100 wPostA none initialDomainState).1⟩

/-! ## Claim C2: failed anchoring during a flush -/

def wChainLink : ChainedPost :=
  { post := wPostA, hash := 7, previousHash := 0, chainIndex := 0,
    userSignature := none, ipfsHash := none, ipfsUrl := none }

/-- C2 counterexample: a flush whose batch-summary upload failed
(`uploadToIPFS` returned null, modelled by `batchIpfs = none`) still clears
the chain: the single-link chain becomes empty, so the link has left the
batch even though its summary was never anchored. The claim that a failed
anchoring leaves the chain un-cleared is therefore false. -/
theorem C2_counterexample :
    (flushBatch wSha none 0
        { postChain := [wChainLink], lastHash := 7 }).1.postChain = [] ∧
    ({ postChain := [wChainLink], lastHash := 7 } : DomainState).postChain
      ≠ [] :=
  ⟨rfl, List.cons_ne_nil _ _⟩

/-- C2 (amended): `uploadToIPFS` never throws - it returns null on failure -
so `flushBatch` behaves identically whether or not the batch summary was
anchored: on a non-empty chain it always clears the chain and rehashes
`lastHash`. The chain is left un-cleared only if an exception escaped before
the clearing code, which an upload failure never causes. -/
theorem C2_flush_clears_despite_failure (sha : Hash → Hash)
    (r : Option IpfsRef) (now : Nat) (s : DomainState) :
    (flushBatch sha none now s).1 = (flushBatch sha r now s).1 ∧
    (s.postChain ≠ [] →
      (flushBatch sha none now s).1.postChain = [] ∧
      (flushBatch sha none now s).1.lastHash = sha s.lastHash) := by
  constructor
  · unfold flushBatch; split <;> rfl
  · intro hne
    have hlen : ¬s.postChain.length = 0 :=
      fun h0 => hne (List.length_eq_zero.mp h0)
    unfold flushBatch
    rw [if_neg hlen]
    exact ⟨rfl, rfl⟩

/-- Witness for C2 (amended): the concrete one-link state from the
counterexample, flushed with a failed upload. -/
theorem C2_flush_clears_despite_failure_witness :
    ((flushBatch wSha none 3
        { postChain := [wChainLink], lastHash := 7 }).1
      = (flushBatch wSha (some { hash := "Qm", url := "u" }) 3
          { postChain := [wChainLink], lastHash := 7 }).1) ∧
    ((flushBatch wSha none 3
        { postChain := [wChainLink], lastHash := 7 }).1.postChain = [] ∧
      (flushBatch wSha none 3
          { postChain := [wChainLink], lastHash := 7 }).1.lastHash
        = wSha 7) := by
  have h := C2_flush_clears_despite_failure wSha
    (some { hash := "Qm", url := "u" }) 3
    { postChain := [wChainLink], lastHash := 7 }
  exact ⟨h.1, h.2 (List.cons_ne_nil _ _)⟩

/-! ## Claim C3: threshold flush -/

/-- C3: starting from a fresh domain, after exactly `batchThreshold` accepted
posts have been appended by the Chain Batcher a flush occurs: the chain
resets to empty and `lastHash` becomes the rehash `sha` of the pre-flush
`lastHash` (which is one of the post-derived link hashes); and whenever the
rehash function's range is disjoint from the post-hash function's range (the
claim's collision-freeness reading), the new `lastHash` differs from every
post-derived chain hash produced during the run. -/
theorem C3_threshold_flush (hp : Post → Hash → Hash) (sha : Hash → Hash)
    (batchThreshold : Nat) (es : List AddEvent)
    (hth : 1 ≤ batchThreshold) (hlen : es.length = batchThreshold)
    (hdisj : ∀ x p h, sha x ≠ hp p h) :
    (runBatch hp sha batchThreshold es initialDomainState).postChain = [] ∧
    (∃ hpre ∈ (runBatchLinks hp sha batchThreshold es
        initialDomainState).map ChainedPost.hash,
      (runBatch hp sha batchThreshold es initialDomainState).lastHash
        = sha hpre) ∧
    (∀ l ∈ runBatchLinks hp sha batchThreshold es initialDomainState,
      (runBatch hp sha batchThreshold es initialDomainState).lastHash
        ≠ l.hash) := by
  rcases List.eq_nil_or_concat es with rfl | ⟨es1, e, rfl⟩
  · simp at hlen; omega
  · simp only [List.concat_eq_append] at hlen ⊢
    have hlen1 : es1.length + 1 = batchThreshold := by simpa using hlen
    have hbelow := runBatch_below hp sha batchThreshold es1 initialDomainState
      rfl (by simp only [initialDomainState, List.length_nil]; omega)
    have hflush : (addPostToBatch hp sha batchThreshold e.ipfsResult
        e.batchIpfs e.now e.post e.userSignature
        (runBatch hp sha batchThreshold es1 initialDomainState)).2
        = { postChain := [],
            lastHash := sha (hp e.post (runBatch hp sha batchThreshold es1
              initialDomainState).lastHash) } := by
      rw [addPostToBatch_eq, if_pos (by rw [hbelow.2]; simp [initialDomainState]; omega)]
    have hfin : runBatch hp sha batchThreshold (es1 ++ [e]) initialDomainState
        = { postChain := [],
            lastHash := sha (hp e.post (runBatch hp sha batchThreshold es1
              initialDomainState).lastHash) } := by
      rw [runBatch_append, runBatch_cons, hflush]
      rfl
    have hlinks : runBatchLinks hp sha batchThreshold (es1 ++ [e])
        initialDomainState
        = runBatchLinks hp sha batchThreshold es1 initialDomainState
          ++ [(addPostToBatch hp sha batchThreshold e.ipfsResult e.batchIpfs
              e.now e.post e.userSignature
              (runBatch hp sha batchThreshold es1 initialDomainState)).1] := by
      rw [runBatchLinks_append, runBatchLinks_cons]
      rfl
    refine ⟨by rw [hfin], ?_, ?_⟩
    · refine ⟨hp e.post (runBatch hp sha batchThreshold es1
        initialDomainState).lastHash, ?_, by rw [hfin]⟩
      rw [hlinks, List.map_append]
      apply List.mem_append_right
      rw [addPostToBatch_eq]
      exact List.mem_singleton.mpr rfl
    · intro l hl
      obtain ⟨p, h, hph⟩ := runBatchLinks_hash hp sha batchThreshold
        (es1 ++ [e]) initialDomainState l hl
      rw [hfin, hph]
      exact hdisj _ p h

/-- Witness for C3: threshold 2, two appends from a fresh domain; the parity
split between `wSha` (even values) and `wHp` (odd values) discharges the
disjoint-range hypothesis. -/
theorem C3_threshold_flush_witness :
    (runBatch wHp wSha 2 [wEventA, wEventB] initialDomainState).postChain
      = [] ∧
    (∃ hpre ∈ (runBatchLinks wHp wSha 2 [wEventA, wEventB]
        initialDomainState).map ChainedPost.hash,
      (runBatch wHp wSha 2 [wEventA, wEventB] initialDomainState).lastHash
        = wSha hpre) ∧
    (∀ l ∈ runBatchLinks wHp wSha 2 [wEventA, wEventB] initialDomainState,
      (runBatch wHp wSha 2 [wEventA, wEventB] initialDomainState).lastHash
        ≠ l.hash) :=
  C3_threshold_flush wHp wSha 2 [wEventA, wEventB] (by decide) (by decide)
    (by intro x p h
        have hno : ∀ a b : Nat, 2 * a + 2 ≠ 2 * b + 1 := by omega
        exact hno x (p.id + h))

/-! ## Access resolver, channels and routes -/

/-- Outcome of the external authorization oracle call
`req.domainAcl.checkAgentAccess(agent, address, hostname)`: it resolves to an
object carrying a numeric access level, or it throws. -/
inductive Oracle where
  | ok (level : Nat)
  | err
deriving Repr, DecidableEq

/-- The `{address, name}` object attached to a granted permission. -/
structure PermUser where
  address : String
  name : Option String
deriving Repr, DecidableEq

/-- Result of `checkPostingPermission`: either `{allowed: false, reason}` or
`{allowed: true, user, level}`. -/
inductive PermOutcome where
  | denied (reason : String)
  | granted (user : PermUser) (level : Nat)
deriving Repr, DecidableEq

/-- Model of JavaScript `text.trim()`: strip whitespace from both ends.
Implemented over the character list so that it evaluates inside the kernel. -/
def jsTrim (s : String) : String :=
  String.mk
    (((s.data.dropWhile Char.isWhitespace).reverse.dropWhile
      Char.isWhitespace).reverse)

/-- Model of JavaScript `s.startsWith(p)`, over the character lists so that
it evaluates inside the kernel. -/
def strStartsWith (s p : String) : Bool :=
  p.data.isPrefixOf s.data

/-- JavaScript `s || null` on an optional string: the empty string is falsy
and collapses to null. -/
def jsOrNull (o : Option String) : Option String :=
  match o with
  | some s => if s = "" then none else some s
  | none => none

/-- `checkPostingPermission(req)`: no authenticated client denies with
"Authentication required"; an oracle throw is caught and denies with
"Permission check failed"; level 2 (editor) or higher is granted, carrying
the address and the ACL display name (`getUserName` itself never throws -
failures yield null); anything below level 2 denies with the
editor-privileges message. -/
def checkPostingPermission (client : Option String) (oracle : Oracle)
    (aclName : Option String) : PermOutcome :=
  match client with
  | none => .denied "Authentication required"
  | some address =>
    match oracle with
    | .ok level =>
      if 2 ≤ level then .granted { address := address, name := aclName } level
      else .denied
        "You need editor privileges to post. Request access in the sidebar."
    | .err => .denied "Permission check failed"

/-- A configured channel `{name, list}`. -/
structure Channel where
  name : String
  list : Option String
deriving Repr, DecidableEq

/-- The loop of `getAccessibleChannelNames` over the configured channels for
a non-admin authenticated caller: channels without an access list need level
1 (reader) or higher; channels with a list need `isInACL` membership. -/
def accessibleLoop (address : String) (level : Nat)
    (inACL : String → String → Bool) : List Channel → List String
  | [] => []
  | ch :: rest =>
    let tail := accessibleLoop address level inACL rest
    match ch.list with
    | none => if 1 ≤ level then ch.name :: tail else tail
    | some l => if inACL l address then ch.name :: tail else tail

/-- `getAccessibleChannelNames(req)`: always contains "general";
authenticated callers are resolved through the oracle - a throw propagates
to the caller (`.error`); level 3 and above see every channel; otherwise the
per-channel loop applies. Unauthenticated callers see only channels without
an access list, and no oracle call is made. -/
def getAccessibleChannelNames (client : Option String) (oracle : Oracle)
    (inACL : String → String → Bool) (channels : List Channel) :
    Except Unit (List String) :=
  match client with
  | some address =>
    match oracle with
    | .err => .error ()
    | .ok level =>
      if 3 ≤ level then .ok ("general" :: channels.map Channel.name)
      else .ok ("general" :: accessibleLoop address level inACL channels)
  | none =>
    .ok ("general" :: (channels.filter (fun ch => ch.list.isNone)).map
      Channel.name)

/-- Stored board data as returned by `readData`: the loaded posts plus the
`nextId` counter. -/
structure BoardData where
  posts : List Post
  nextId : Nat
deriving Repr, DecidableEq

/-- The image settings consulted by the post route. -/
structure ImageSettings where
  maxProcessedSize : Nat
  allowSvg : Bool
deriving Repr, DecidableEq

/-- Result of the post route: 400, 403 or the created post. -/
inductive PostResult where
  | validationError (msg : String)
  | permissionError (reason : String)
  | created (p : Post)
deriving Repr, DecidableEq

/-- The channel validation of the post route: a present, non-falsy channel
other than "general" must exist among the configured channels. -/
def channelInvalid (channels : List Channel) (channel : Option String) :
    Bool :=
  match channel with
  | some ch =>
    ch != "" && ch != "general" && !(channels.any (fun c => c.name == ch))
  | none => false

/-- The image validation block of the post route. The SVG sanitizer is the
repository's regex-based `sanitizeSvg`, taken as a parameter here (it throws
on malformed input, modelled by `none`); its output replaces `req.body.image`
but the route later stores the original `image` binding, so the sanitized
value does not appear in the result. -/
def imageCheck (settings : ImageSettings)
    ( sanitizeSvg : String → Option String) :
    Option String → Except String Unit
  | none => .ok ()
  | some image =>
    if !(strStartsWith image "data:image/") then .error "Invalid image format"
    else
      let sizeInBytes := image.length * 3 / 4
      let maxSize := settings.maxProcessedSize * 1024 * 1024
      if maxSize < sizeInBytes then .error "Image too large"
      else
        let isJpeg := strStartsWith image "data:image/jpeg"
        let isSvg := strStartsWith image "data:image/svg+xml"
        if !isJpeg && !isSvg then
          .error "Only JPEG and SVG images are allowed"
        else if isSvg && !settings.allowSvg then
          .error "SVG images are not allowed on this board"
        else if isSvg then
          match sanitizeSvg image with
          | some _ => .ok ()
          | none => .error "Invalid or malicious SVG content"
        else .ok ()

/-- The POST `/api/posts` handler: reject empty text, then an unknown
channel, then a bad image; only then consult `checkPostingPermission`; on
grant, take `id = nextId++`, build the post, unshift it onto the stored
posts and persist the updated index. -/
def submitPostRoute (channels : List Channel) (settings : ImageSettings)
    ( sanitizeSvg : String → Option String) (client : Option String)
    (oracle : Oracle) (aclName : Option String) (now : Nat) (text : String)
    (image : Option String) (channel : Option String) (data : BoardData) :
    PostResult × BoardData :=
  if (jsTrim text).length = 0 then (.validationError "Text is required", data)
  else if channelInvalid channels channel then
    (.validationError "Invalid channel", data)
  else
    match imageCheck settings sanitizeSvg image with
    | .error msg => (.validationError msg, data)
    | .ok _ =>
      match checkPostingPermission client oracle aclName with
      | .denied reason => (.permissionError reason, data)
      | .granted user _level =>
        let post : Post :=
          { id := data.nextId, text := jsTrim text, image := jsOrNull image,
            author := user.address, authorName := jsOrNull user.name,
            timestamp := now, comments := [], channel := jsOrNull channel }
        (.created post,
         { posts := post :: data.posts, nextId := data.nextId + 1 })

/-- Result of the GET `/api/posts` handler: the filtered posts, a 403 for a
requested channel outside the caller's access, or the 500 produced by the
route's catch-all when the oracle throws. -/
inductive ListResult where
  | ok (posts : List Post)
  | forbidden
  | serverError
deriving Repr, DecidableEq

/-- The GET `/api/posts` handler: resolve the accessible channel names (an
oracle throw inside `getAccessibleChannelNames` is caught only by the
route's catch-all, producing a 500), strip posts from inaccessible channels,
then narrow by the requested channel if one was given (a falsy query string
skips the narrowing, an inaccessible channel is a 403). -/
def listPostsRoute (client : Option String) (oracle : Oracle)
    (inACL : String → String → Bool) (channels : List Channel)
    (channelQuery : Option String) (data : BoardData) : ListResult :=
  match getAccessibleChannelNames client oracle inACL channels with
  | .error _ => .serverError
  | .ok accessible =>
    let posts := data.posts.filter (fun p =>
      accessible.contains (match p.channel with
        | none => "general"
        | some s => if s = "" then "general" else s))
    match channelQuery with
    | none => .ok posts
    | some ch =>
      if ch = "" then .ok posts
      else if !(accessible.contains ch) then .forbidden
      else if ch = "general" then
        .ok (posts.filter (fun p =>
          match p.channel with
          | none => true
          | some s => s == "" || s == "general"))
      else .ok (posts.filter (fun p => p.channel == some ch))

/-- Result of the comment route. -/
inductive CommentResult where
  | validationError (msg : String)
  | permissionError (reason : String)
  | notFound
  | created (c : Comment)
deriving Repr, DecidableEq

/-- The POST `/api/posts/:id/comments` handler: reject empty text, consult
`checkPostingPermission`, 404 on a missing post, then append the comment
(id and timestamp both from `Date.now()`) to the post and persist. -/
def submitCommentRoute (client : Option String) (oracle : Oracle)
    (aclName : Option String) (now : Nat) (postId : Nat) (text : String)
    (data : BoardData) : CommentResult × BoardData :=
  if (jsTrim text).length = 0 then (.validationError "Text is required", data)
  else
    match checkPostingPermission client oracle aclName with
    | .denied reason => (.permissionError reason, data)
    | .granted user _level =>
      match data.posts.find? (fun p => p.id == postId) with
      | none => (.notFound, data)
      | some _ =>
        let comment : Comment :=
          { id := now, text := jsTrim text, author := user.address,
            authorName := jsOrNull user.name, timestamp := now }
        (.created comment,
         { data with posts := data.posts.map (fun p =>
             if p.id = postId then
               { p with comments := p.comments ++ [comment] }
             else p) })

/-- The full write path of an accepted post: the route handler followed by
the fire-and-forget `addPostToBatch` that the route schedules for the
created post (the response is already fixed when the batch step runs). -/
def submitPostAndBatch (hp : Post → Hash → Hash) (sha : Hash → Hash)
    (batchThreshold : Nat) (channels : List Channel)
    (settings : ImageSettings) ( sanitizeSvg : String → Option String)
    (client : Option String) (oracle : Oracle) (aclName : Option String)
    (now : Nat) (text : String) (image : Option String)
    (channel : Option String) (data : BoardData)
    (ipfsResult batchIpfs : Option IpfsRef) (s : DomainState) :
    PostResult × BoardData × DomainState :=
  match submitPostRoute channels settings sanitizeSvg client oracle aclName
      now text image channel data with
  | (.created p, data2) =>
    (.created p, data2,
      (addPostToBatch hp sha batchThreshold ipfsResult batchIpfs now p none
        s).2)
  | (r, data2) => (r, data2, s)

/-- Result of the POST `/api/channels` handler. -/
inductive ChannelResult where
  | forbidden (msg : String)
  | invalid (msg : String)
  | created (c : Channel)
deriving Repr, DecidableEq

/-- One character of the channel-name pattern `[a-z0-9-]`. -/
def validChannelChar (c : Char) : Bool :=
  (('a' ≤ c) && (c ≤ 'z')) || (('0' ≤ c) && (c ≤ '9')) || (c == '-')

/-- The name test of the channel route, `/^[a-z0-9-]+$/.test(name)` combined
with the `!name` falsy check: non-empty and all characters from the
pattern. -/
def validChannelName (name : String) : Bool :=
  name != "" && name.data.all validChannelChar

/-- The POST `/api/channels` handler: admin gate, pattern check, the
reserved name "general", then uniqueness against the configured channels;
on success the channel is appended to the configuration. -/
def addChannelRoute (adminAllowed : Bool) (name : String)
    (list : Option String) (channels : List Channel) :
    ChannelResult × List Channel :=
  if !adminAllowed then
    (.forbidden "Only admins can add channels", channels)
  else if !(validChannelName name) then
    (.invalid
      "Invalid channel name. Use lowercase letters, numbers, and hyphens only.",
     channels)
  else if name = "general" then
    (.invalid "Channel name general is reserved for uncategorized posts.",
     channels)
  else if channels.any (fun c => c.name == name) then
    (.invalid "Channel already exists", channels)
  else
    (.created { name := name, list := list },
     channels ++ [{ name := name, list := list }])

/-- The denied path of the post route: when the three validation steps pass
and `checkPostingPermission` denies, the route returns 403 with the
resolver's reason and leaves the stored data untouched. -/
theorem submitPostRoute_denied (channels : List Channel)
    (settings : ImageSettings) (sanitize : String → Option String)
    (client : Option String) (oracle : Oracle) (aclName : Option String)
    (now : Nat) (text : String) (image : Option String)
    (channel : Option String) (data : BoardData) (r : String)
    (htext : ¬(jsTrim text).length = 0)
    (hchan : channelInvalid channels channel = false)
    (himg : imageCheck settings sanitize image = .ok ())
    (hperm : checkPostingPermission client oracle aclName = .denied r) :
    submitPostRoute channels settings sanitize client oracle aclName now text
      image channel data = (.permissionError r, data) := by
  simp [submitPostRoute, htext, hchan, himg, hperm]

/-- The granted path of the post route: when the three validation steps pass
and `checkPostingPermission` grants, the route creates the post with
`id = nextId`, unshifts it, and bumps `nextId`. -/
theorem submitPostRoute_granted (channels : List Channel)
    (settings : ImageSettings) (sanitize : String → Option String)
    (client : Option String) (oracle : Oracle) (aclName : Option String)
    (now : Nat) (text : String) (image : Option String)
    (channel : Option String) (data : BoardData) (u : PermUser) (lvl : Nat)
    (htext : ¬(jsTrim text).length = 0)
    (hchan : channelInvalid channels channel = false)
    (himg : imageCheck settings sanitize image = .ok ())
    (hperm : checkPostingPermission client oracle aclName
      = .granted u lvl) :
    submitPostRoute channels settings sanitize client oracle aclName now text
      image channel data
      = (.created
          { id := data.nextId, text := jsTrim text, image := jsOrNull image,
            author := u.address, authorName := jsOrNull u.name,
            timestamp := now, comments := [], channel := jsOrNull channel },
         { posts :=
             { id := data.nextId, text := jsTrim text,
               image := jsOrNull image, author := u.address,
               authorName := jsOrNull u.name, timestamp := now,
               comments := [], channel := jsOrNull channel } :: data.posts,
           nextId := data.nextId + 1 }) := by
  simp [submitPostRoute, htext, hchan, himg, hperm]

/-! ## Claim C4: fail-closed writes -/

/-- C4: a caller whose resolved access level is below 2 (below Poster) gets
a 403 with the editor-privileges reason from a valid post submission, and
nothing changes: the stored posts and the `nextId` counter are untouched and
the batcher state gains no link. -/
theorem C4_reader_denied_no_mutation (hp : Post → Hash → Hash)
    (sha : Hash → Hash) (batchThreshold : Nat) (channels : List Channel)
    (settings : ImageSettings) (sanitize : String → Option String)
    (addr : String) (lvl : Nat) (aclName : Option String) (now : Nat)
    (text : String) (image : Option String) (channel : Option String)
    (data : BoardData) (ipfsResult batchIpfs : Option IpfsRef)
    (s : DomainState)
    (htext : ¬(jsTrim text).length = 0)
    (hchan : channelInvalid channels channel = false)
    (himg : imageCheck settings sanitize image = .ok ())
    (hlvl : lvl < 2) :
    submitPostAndBatch hp sha batchThreshold channels settings sanitize
      (some addr) (.ok lvl) aclName now text image channel data ipfsResult
      batchIpfs s
      = (.permissionError
          "You need editor privileges to post. Request access in the sidebar.",
         data, s) := by
  have hperm : checkPostingPermission (some addr) (.ok lvl) aclName
      = .denied
        "You need editor privileges to post. Request access in the sidebar." := by
    simp [checkPostingPermission, show ¬2 ≤ lvl by omega]
  unfold submitPostAndBatch
  rw [submitPostRoute_denied channels settings sanitize (some addr) (.ok lvl)
    aclName now text image channel data _ htext hchan himg hperm]

/-- Witness for C4: a reader (level 1) submitting the valid text "hello" to
an empty board changes nothing. -/
theorem C4_reader_denied_no_mutation_witness :
    submitPostAndBatch wHp wSha 5 [] { maxProcessedSize := 10, allowSvg := true }
      (fun _ => none) (some "0xabc") (.ok 1) none 5 "hello" none none
      { posts := [], nextId := 1 } none none initialDomainState
      = (.permissionError
          "You need editor privileges to post. Request access in the sidebar.",
         { posts := [], nextId := 1 }, initialDomainState) :=
  C4_reader_denied_no_mutation wHp wSha 5 []
    { maxProcessedSize := 10, allowSvg := true } (fun _ => none) "0xabc" 1
    none 5 "hello" none none { posts := [], nextId := 1 } none none
    initialDomainState (by decide) rfl rfl (by decide)

/-! ## Claim C5: unreachable authorization oracle -/

/-- C5 counterexample: an authenticated caller lists posts while the oracle
call throws. `getAccessibleChannelNames` does not catch the throw, so the
route's catch-all answers 500 - the read does not succeed and returns no
Reader-level post list, contradicting the claim's read half. -/
theorem C5_counterexample :
    listPostsRoute (some "0xabc") .err (fun _ _ => false) [] none
      { posts := [wPostA], nextId := 2 } = .serverError := rfl

/-- C5 (amended): when the oracle call throws, writes fail closed - both the
post route and the comment route deny with "Permission check failed" and
mutate nothing - but reads do not fall back to Reader level: an
authenticated read propagates the throw to the catch-all and answers 500;
only an unauthenticated read (which never consults the oracle) succeeds,
returning the posts of channels without an access list. -/
theorem C5_oracle_down_fail_closed (channels : List Channel)
    (settings : ImageSettings) (sanitize : String → Option String)
    (addr : String) (aclName : Option String) (now : Nat) (text : String)
    (image : Option String) (channel : Option String) (data : BoardData)
    (inACL : String → String → Bool) (postId : Nat) (q : Option String)
    (oracle2 : Oracle)
    (htext : ¬(jsTrim text).length = 0)
    (hchan : channelInvalid channels channel = false)
    (himg : imageCheck settings sanitize image = .ok ()) :
    (submitPostRoute channels settings sanitize (some addr) .err aclName now
        text image channel data
      = (.permissionError "Permission check failed", data)) ∧
    (submitCommentRoute (some addr) .err aclName now postId text data
      = (.permissionError "Permission check failed", data)) ∧
    (listPostsRoute (some addr) .err inACL channels q data = .serverError) ∧
    (listPostsRoute none oracle2 inACL channels none data
      = .ok (data.posts.filter (fun p =>
          ("general" :: (channels.filter (fun ch => ch.list.isNone)).map
            Channel.name).contains (match p.channel with
            | none => "general"
            | some s => if s = "" then "general" else s)))) := by
  refine ⟨?_, ?_, rfl, rfl⟩
  · exact submitPostRoute_denied channels settings sanitize (some addr) .err
      aclName now text image channel data _ htext hchan himg rfl
  · simp [submitCommentRoute, htext, checkPostingPermission]

/-- Witness for C5 (amended): concrete one-post board, concrete caller. -/
theorem C5_oracle_down_fail_closed_witness :
    (submitPostRoute [] { maxProcessedSize := 10, allowSvg := true }
        (fun _ => none) (some "0xabc") .err none 5 "hi" none none
        { posts := [wPostA], nextId := 2 }
      = (.permissionError "Permission check failed",
         { posts := [wPostA], nextId := 2 })) ∧
    (submitCommentRoute (some "0xabc") .err none 5 1 "hi"
        { posts := [wPostA], nextId := 2 }
      = (.permissionError "Permission check failed",
         { posts := [wPostA], nextId := 2 })) ∧
    (listPostsRoute (some "0xabc") .err (fun _ _ => false) [] none
        { posts := [wPostA], nextId := 2 } = .serverError) ∧
    (listPostsRoute none (.ok 0) (fun _ _ => false) [] none
        { posts := [wPostA], nextId := 2 }
      = .ok (({ posts := [wPostA], nextId := 2 } : BoardData).posts.filter
          (fun p =>
          ("general" :: (([] : List Channel).filter
            (fun ch => ch.list.isNone)).map Channel.name).contains
            (match p.channel with
            | none => "general"
            | some s => if s = "" then "general" else s)))) :=
  C5_oracle_down_fail_closed [] { maxProcessedSize := 10, allowSvg := true }
    (fun _ => none) "0xabc" none 5 "hi" none none
    { posts := [wPostA], nextId := 2 } (fun _ _ => false) 1 none (.ok 0)
    (by decide) rfl rfl

/-! ## Claim C6: anchor failure isolation -/

/-- C6: when every content-store upload fails (`uploadToIPFS` yields null
throughout), a valid submission by a sufficiently privileged caller still
succeeds and returns the created post, the post is stored and the counter
bumped, the chain still grows by exactly one link carrying that post, the
link's `ipfsHash`/`ipfsUrl` stay unset, and the response is identical to
what any other anchoring outcome would have produced - the failure is never
surfaced to the writer. -/
theorem C6_anchor_failure_isolated (hp : Post → Hash → Hash)
    (sha : Hash → Hash) (batchThreshold : Nat) (channels : List Channel)
    (settings : ImageSettings) (sanitize : String → Option String)
    (addr : String) (lvl : Nat) (aclName : Option String) (now : Nat)
    (text : String) (image : Option String) (channel : Option String)
    (data : BoardData) (s : DomainState)
    (htext : ¬(jsTrim text).length = 0)
    (hchan : channelInvalid channels channel = false)
    (himg : imageCheck settings sanitize image = .ok ())
    (hlvl : 2 ≤ lvl)
    (hroom : s.postChain.length + 1 < batchThreshold) :
    ∃ p l,
      (submitPostAndBatch hp sha batchThreshold channels settings sanitize
          (some addr) (.ok lvl) aclName now text image channel data none none
          s).1 = .created p ∧
      (submitPostAndBatch hp sha batchThreshold channels settings sanitize
          (some addr) (.ok lvl) aclName now text image channel data none none
          s).2.1 = { posts := p :: data.posts, nextId := data.nextId + 1 } ∧
      (submitPostAndBatch hp sha batchThreshold channels settings sanitize
          (some addr) (.ok lvl) aclName now text image channel data none none
          s).2.2.postChain = s.postChain ++ [l] ∧
      l.post = p ∧ l.ipfsHash = none ∧ l.ipfsUrl = none ∧
      (∀ ipfs1 b1 ipfs2 b2 : Option IpfsRef,
        (submitPostAndBatch hp sha batchThreshold channels settings sanitize
            (some addr) (.ok lvl) aclName now text image channel data ipfs1
            b1 s).1
          = (submitPostAndBatch hp sha batchThreshold channels settings
              sanitize (some addr) (.ok lvl) aclName now text image channel
              data ipfs2 b2 s).1) := by
  have hperm : checkPostingPermission (some addr) (.ok lvl) aclName
      = .granted { address := addr, name := aclName } lvl := by
    simp [checkPostingPermission, hlvl]
  have hroute := submitPostRoute_granted channels settings sanitize
    (some addr) (.ok lvl) aclName now text image channel data
    { address := addr, name := aclName } lvl htext hchan himg hperm
  refine ⟨{ id := data.nextId, text := jsTrim text, image := jsOrNull image,
            author := addr, authorName := jsOrNull aclName, timestamp := now,
            comments := [], channel := jsOrNull channel },
          mkLink hp none
            { id := data.nextId, text := jsTrim text,
              image := jsOrNull image, author := addr,
              authorName := jsOrNull aclName, timestamp := now,
              comments := [], channel := jsOrNull channel } none s,
          ?_, ?_, ?_, rfl, rfl, rfl, ?_⟩
  · simp only [submitPostAndBatch, hroute]
  · simp only [submitPostAndBatch, hroute]
  · simp only [submitPostAndBatch, hroute]
    rw [addPostToBatch_eq, if_neg (by omega)]
  · intro ipfs1 b1 ipfs2 b2
    simp only [submitPostAndBatch, hroute]

/-- Witness for C6: an editor (level 2) posts "hello" to an empty board with
threshold 5 while every upload fails. -/
theorem C6_anchor_failure_isolated_witness :
    ∃ p l,
      (submitPostAndBatch wHp wSha 5 []
          { maxProcessedSize := 10, allowSvg := true } (fun _ => none)
          (some "0xabc") (.ok 2) none 5 "hello" none none
          { posts := [], nextId := 1 } none none initialDomainState).1
        = .created p ∧
      (submitPostAndBatch wHp wSha 5 []
          { maxProcessedSize := 10, allowSvg := true } (fun _ => none)
          (some "0xabc") (.ok 2) none 5 "hello" none none
          { posts := [], nextId := 1 } none none initialDomainState).2.1
        = { posts := p :: ({ posts := [], nextId := 1 } : BoardData).posts,
            nextId := ({ posts := [], nextId := 1 } : BoardData).nextId
              + 1 } ∧
      (submitPostAndBatch wHp wSha 5 []
          { maxProcessedSize := 10, allowSvg := true } (fun _ => none)
          (some "0xabc") (.ok 2) none 5 "hello" none none
          { posts := [], nextId := 1 } none none initialDomainState).2.2.postChain
        = initialDomainState.postChain ++ [l] ∧
      l.post = p ∧ l.ipfsHash = none ∧ l.ipfsUrl = none ∧
      (∀ ipfs1 b1 ipfs2 b2 : Option IpfsRef,
        (submitPostAndBatch wHp wSha 5 []
            { maxProcessedSize := 10, allowSvg := true } (fun _ => none)
            (some "0xabc") (.ok 2) none 5 "hello" none none
            { posts := [], nextId := 1 } ipfs1 b1 initialDomainState).1
          = (submitPostAndBatch wHp wSha 5 []
              { maxProcessedSize := 10, allowSvg := true } (fun _ => none)
              (some "0xabc") (.ok 2) none 5 "hello" none none
              { posts := [], nextId := 1 } ipfs2 b2
              initialDomainState).1) :=
  C6_anchor_failure_isolated wHp wSha 5 []
    { maxProcessedSize := 10, allowSvg := true } (fun _ => none) "0xabc" 2
    none 5 "hello" none none { posts := [], nextId := 1 }
    initialDomainState (by decide) rfl rfl (by decide) (by decide)

/-! ## Claim C8: channel creation rules -/

/-- C8 counterexample: the code reserves the name "general", not "default":
an admin creating a channel named "default" succeeds and the channel set
changes, contradicting the claim that "default" is forbidden. -/
theorem C8_counterexample :
    (addChannelRoute true "default" none []).1
      = .created { name := "default", list := none } ∧
    (addChannelRoute true "default" none []).2
      = [{ name := "default", list := none }] := by
  constructor <;> rfl

/-- C8 (amended): in the admin-allowed path the route enforces the pattern
`[a-z0-9-]+`, reserves the name "general" (the implicit default channel),
and rejects duplicates; each violation returns a 400 and leaves the channel
set unchanged, and otherwise the channel is appended. -/
theorem C8_channel_creation_rules (name : String) (list : Option String)
    (channels : List Channel) :
    (validChannelName name = false →
      addChannelRoute true name list channels
        = (.invalid
            "Invalid channel name. Use lowercase letters, numbers, and hyphens only.",
           channels)) ∧
    (name = "general" →
      addChannelRoute true name list channels
        = (.invalid
            "Channel name general is reserved for uncategorized posts.",
           channels)) ∧
    ((∃ c ∈ channels, c.name = name) → validChannelName name = true →
      name ≠ "general" →
      addChannelRoute true name list channels
        = (.invalid "Channel already exists", channels)) ∧
    (validChannelName name = true → name ≠ "general" →
      (∀ c ∈ channels, c.name ≠ name) →
      addChannelRoute true name list channels
        = (.created { name := name, list := list },
           channels ++ [{ name := name, list := list }])) := by
  refine ⟨?_, ?_, ?_, ?_⟩
  · intro h
    simp [addChannelRoute, h]
  · intro h
    subst h
    simp [addChannelRoute, show validChannelName "general" = true by decide]
  · intro hdup hvalid hne
    have hany : channels.any (fun c => c.name == name) = true := by
      rcases hdup with ⟨c, hc, he⟩
      exact List.any_eq_true.mpr ⟨c, hc, by simpa using he⟩
    simp [addChannelRoute, hvalid, hne, hany]
  · intro hvalid hne hnodup
    have hany : channels.any (fun c => c.name == name) = false :=
      List.any_eq_false.mpr (fun c hc => by simpa using hnodup c hc)
    simp [addChannelRoute, hvalid, hne, hany]

/-- Witness for C8 (amended): creating "chat" alongside "dev" succeeds;
creating "general" is rejected; re-creating "dev" is rejected. -/
theorem C8_channel_creation_rules_witness :
    (addChannelRoute true "chat" none [{ name := "dev", list := none }]
      = (.created { name := "chat", list := none },
         [{ name := "dev", list := none },
          { name := "chat", list := none }])) ∧
    (addChannelRoute true "general" none [{ name := "dev", list := none }]
      = (.invalid
          "Channel name general is reserved for uncategorized posts.",
         [{ name := "dev", list := none }])) ∧
    (addChannelRoute true "dev" none [{ name := "dev", list := none }]
      = (.invalid "Channel already exists",
         [{ name := "dev", list := none }])) :=
  ⟨(C8_channel_creation_rules "chat" none
      [{ name := "dev", list := none }]).2.2.2 (by decide) (by decide)
      (by decide),
   (C8_channel_creation_rules "general" none
      [{ name := "dev", list := none }]).2.1 rfl,
   (C8_channel_creation_rules "dev" none
      [{ name := "dev", list := none }]).2.2.1
      ⟨{ name := "dev", list := none }, by decide, rfl⟩ (by decide)
      (by decide)⟩

/-! ## Tenant storage backend: index, per-post records, legacy migration -/

/-- One metadata entry of `posts/index.json`. -/
structure IndexEntry where
  id : Nat
  timestamp : Nat
  author : String
  channel : Option String
deriving Repr, DecidableEq

/-- The index file `posts/index.json`: `{nextId, posts[]}`. -/
structure IndexFile where
  nextId : Nat
  posts : List IndexEntry
deriving Repr, DecidableEq

/-- The tenant's storage namespace: the optional index file, the per-post
record files `posts/{id}.json` (an association list keyed by id), and the
optional legacy monolith `message-board-posts.json`. -/
structure Storage where
  indexFile : Option IndexFile
  postFiles : List (Nat × Post)
  legacyFile : Option BoardData
deriving Repr, DecidableEq

/-- Read the record file `posts/{id}.json`. -/
def lookupPostFile : List (Nat × Post) → Nat → Option Post
  | [], _ => none
  | (k, v) :: rest, id => if k = id then some v else lookupPostFile rest id

/-- Write the record file `posts/{id}.json`: replace an existing record in
place, or add a new one. -/
def setPostFile : List (Nat × Post) → Nat → Post → List (Nat × Post)
  | [], id, p => [(id, p)]
  | (k, v) :: rest, id, p =>
    if k = id then (id, p) :: rest else (k, v) :: setPostFile rest id p

/-- The index entry derived from a post (`channel: p.channel || null`). -/
def indexEntryOf (p : Post) : IndexEntry :=
  { id := p.id, timestamp := p.timestamp, author := p.author,
    channel := jsOrNull p.channel }

/-- Write every post of a legacy monolith out as a record file
(`Promise.all` over `storage.writeFile`). -/
def writeAllPosts (posts : List Post) (fs : List (Nat × Post)) :
    List (Nat × Post) :=
  posts.foldl (fun acc p => setPostFile acc p.id p) fs

/-- `migrateLegacyData(domain, storage)`: no legacy file means a fresh board
`{posts: [], nextId: 1}`; otherwise fan the monolith out into one record per
post, write the derived index, and return the legacy data unchanged. -/
def migrateLegacyData (s : Storage) : BoardData × Storage :=
  match s.legacyFile with
  | none => ({ posts := [], nextId := 1 }, s)
  | some data =>
    ({ posts := data.posts, nextId := data.nextId },
     { s with
        indexFile := some
          { nextId := data.nextId, posts := data.posts.map indexEntryOf },
        postFiles := writeAllPosts data.posts s.postFiles })

/-- `readData(domain)`: with an index present, load the posts it lists
(records that fail to load are skipped) and take `nextId` from the index,
falling back to `max(id) + 1` when the stored counter is falsy; without an
index, attempt the legacy migration. -/
def readData (s : Storage) : BoardData × Storage :=
  match s.indexFile with
  | some index =>
    let posts := index.posts.filterMap
      (fun meta => lookupPostFile s.postFiles meta.id)
    ({ posts := posts,
       nextId := if index.nextId = 0 then
           (posts.map Post.id).foldl max 0 + 1
         else index.nextId }, s)
  | none => migrateLegacyData s

/-- The index `writeData(domain, data)` derives from the in-memory data. -/
def writeDataIndex (data : BoardData) : IndexFile :=
  { nextId := data.nextId, posts := data.posts.map indexEntryOf }

/-- `writeData(domain, data)`: overwrite `posts/index.json` only; record
files are written separately by `writePost`. -/
def writeData (s : Storage) (data : BoardData) : Storage :=
  { s with indexFile := some (writeDataIndex data) }

/-- `writePost(domain, post)`: overwrite the post's record file. -/
def writePost (s : Storage) (p : Post) : Storage :=
  { s with postFiles := setPostFile s.postFiles p.id p }

theorem lookupPostFile_setPostFile_self (fs : List (Nat × Post)) (id : Nat)
    (p : Post) : lookupPostFile (setPostFile fs id p) id = some p := by
  induction fs with
  | nil => simp [setPostFile, lookupPostFile]
  | cons kv rest ih =>
    obtain ⟨k, v⟩ := kv
    by_cases hk : k = id
    · simp [setPostFile, hk, lookupPostFile]
    · simp [setPostFile, hk, lookupPostFile, ih]

theorem lookupPostFile_setPostFile_other (fs : List (Nat × Post))
    (id id2 : Nat) (p : Post) (hne : id ≠ id2) :
    lookupPostFile (setPostFile fs id p) id2 = lookupPostFile fs id2 := by
  induction fs with
  | nil => simp [setPostFile, lookupPostFile, hne]
  | cons kv rest ih =>
    obtain ⟨k, v⟩ := kv
    by_cases hk : k = id
    · subst hk
      simp [setPostFile, lookupPostFile, hne]
    · simp only [setPostFile, if_neg hk]
      by_cases hk2 : k = id2
      · simp [lookupPostFile, hk2]
      · simp [lookupPostFile, hk2, ih]

theorem setPostFile_of_lookup_eq (fs : List (Nat × Post)) (id : Nat)
    (p : Post) (h : lookupPostFile fs id = some p) :
    setPostFile fs id p = fs := by
  induction fs with
  | nil => simp [lookupPostFile] at h
  | cons kv rest ih =>
    obtain ⟨k, v⟩ := kv
    by_cases hk : k = id
    · subst hk
      have hv : v = p := by simpa [lookupPostFile] using h
      subst hv
      simp [setPostFile]
    · simp only [lookupPostFile, if_neg hk] at h
      simp [setPostFile, hk, ih h]

theorem writeAllPosts_lookup_notmem (posts : List Post) :
    ∀ (fs : List (Nat × Post)) (id : Nat), id ∉ posts.map Post.id →
      lookupPostFile (writeAllPosts posts fs) id = lookupPostFile fs id := by
  induction posts with
  | nil => intro fs id _; rfl
  | cons q rest ih =>
    intro fs id hid
    simp only [List.map_cons, List.mem_cons, not_or] at hid
    show lookupPostFile (writeAllPosts rest (setPostFile fs q.id q)) id = _
    rw [ih _ id hid.2]
    exact lookupPostFile_setPostFile_other fs q.id id q
      (fun he => hid.1 he.symm)

theorem writeAllPosts_lookup_self (posts : List Post) :
    ∀ (fs : List (Nat × Post)), (posts.map Post.id).Nodup →
      ∀ p ∈ posts, lookupPostFile (writeAllPosts posts fs) p.id = some p := by
  induction posts with
  | nil => intro fs _ p hp; simp at hp
  | cons q rest ih =>
    intro fs hnodup p hp
    simp only [List.map_cons, List.nodup_cons] at hnodup
    rcases List.mem_cons.mp hp with rfl | hmem
    · show lookupPostFile (writeAllPosts rest (setPostFile fs p.id p)) p.id
        = some p
      rw [writeAllPosts_lookup_notmem rest _ p.id hnodup.1]
      exact lookupPostFile_setPostFile_self fs p.id p
    · exact ih (setPostFile fs q.id q) hnodup.2 p hmem

theorem writeAllPosts_of_lookup (posts : List Post) :
    ∀ (fs : List (Nat × Post)),
      (∀ p ∈ posts, lookupPostFile fs p.id = some p) →
      writeAllPosts posts fs = fs := by
  induction posts with
  | nil => intro fs _; rfl
  | cons q rest ih =>
    intro fs hall
    show writeAllPosts rest (setPostFile fs q.id q) = fs
    rw [setPostFile_of_lookup_eq fs q.id q (hall q (List.mem_cons_self q rest))]
    exact ih fs (fun p hp => hall p (List.mem_cons_of_mem q hp))

theorem filterMap_lookup_recover (fs : List (Nat × Post)) :
    ∀ (posts : List Post),
      (∀ p ∈ posts, lookupPostFile fs p.id = some p) →
      (posts.map indexEntryOf).filterMap
        (fun meta => lookupPostFile fs meta.id) = posts := by
  intro posts
  induction posts with
  | nil => intro _; rfl
  | cons q rest ih =>
    intro hall
    have hq : lookupPostFile fs (indexEntryOf q).id = some q :=
      hall q (List.mem_cons_self q rest)
    simp only [List.map_cons, List.filterMap_cons, hq]
    rw [ih (fun p hp => hall p (List.mem_cons_of_mem q hp))]

/-! ## Claim C7: migration idempotence -/

/-- C7: migrating a legacy monolith (with well-formed distinct ids and a
non-falsy counter) is idempotent: the first `readData` migrates and returns
the legacy data; afterwards the index exists; a second `readData` returns
the same data and leaves the storage untouched (migration is never retried
once an index exists); and even re-running `migrateLegacyData` itself
rewrites nothing and returns the same data. -/
theorem C7_migration_idempotent (s : Storage) (L : BoardData)
    (hidx : s.indexFile = none) (hleg : s.legacyFile = some L)
    (hnodup : (L.posts.map Post.id).Nodup) (hnext : L.nextId ≠ 0) :
    (readData s).1 = L ∧
    (readData s).2.indexFile
      = some { nextId := L.nextId, posts := L.posts.map indexEntryOf } ∧
    readData (readData s).2 = ((readData s).1, (readData s).2) ∧
    migrateLegacyData (readData s).2 = ((readData s).1, (readData s).2) := by
  have hlook := writeAllPosts_lookup_self L.posts s.postFiles hnodup
  refine ⟨?_, ?_, ?_, ?_⟩
  · simp [readData, hidx, migrateLegacyData, hleg]
  · simp [readData, hidx, migrateLegacyData, hleg]
  · simp [readData, hidx, migrateLegacyData, hleg,
      filterMap_lookup_recover _ _ hlook, hnext]
  · simp [readData, hidx, migrateLegacyData, hleg,
      writeAllPosts_of_lookup _ _ hlook]

/-- The two-post legacy monolith used by the C7 witness. -/
def wLegacy : BoardData := { posts := [wPostA, wPostB], nextId := 3 }

/-- A storage namespace holding only the legacy monolith. -/
def wLegacyStore : Storage :=
  { indexFile := none, postFiles := [], legacyFile := some wLegacy }

/-- Witness for C7: a two-post legacy monolith with ids 1 and 2. -/
theorem C7_migration_idempotent_witness :
    (readData wLegacyStore).1 = wLegacy ∧
    (readData wLegacyStore).2.indexFile
      = some { nextId := wLegacy.nextId,
               posts := wLegacy.posts.map indexEntryOf } ∧
    readData (readData wLegacyStore).2
      = ((readData wLegacyStore).1, (readData wLegacyStore).2) ∧
    migrateLegacyData (readData wLegacyStore).2
      = ((readData wLegacyStore).1, (readData wLegacyStore).2) :=
  C7_migration_idempotent wLegacyStore wLegacy rfl rfl (by decide)
    (by decide)

/-! ## Claim C9: id allocation under concurrency -/

/-- The per-request context after the read half of the post handler: the
snapshot read from storage with the new post already unshifted, and the post
itself. -/
structure ReqCtx where
  post : Post
  data : BoardData
deriving Repr, DecidableEq

/-- The read half of the post handler for a valid, already-authorized
request: `await this.readData(req.domain)`, then `id = data.nextId++`, the
post object, and the `unshift` onto the request's private snapshot. The
storage component carries any writes `readData` itself performed
(migration). Nothing else is written yet: the handler suspends at its
storage awaits, so another request may run between this and the write
half. -/
def submitReadPhase (author : String) (text : String) (now : Nat)
    (store : Storage) : ReqCtx × Storage :=
  let d := (readData store).1
  let post : Post :=
    { id := d.nextId, text := jsTrim text, image := none, author := author,
      authorName := none, timestamp := now, comments := [], channel := none }
  ({ post := post,
     data := { posts := post :: d.posts, nextId := d.nextId + 1 } },
   (readData store).2)

/-- The write half of the post handler: `writePost` for the new record file,
then `writeData`, which overwrites the index with the request's private
snapshot. -/
def submitWritePhase (ctx : ReqCtx) (store : Storage) : Storage :=
  writeData (writePost store ctx.post) ctx.data

/-- Two requests scheduled read-read-write-write: both handlers pass their
`await readData` suspension point before either reaches its writes - an
interleaving the event loop permits, since the code takes no per-tenant
lock. -/
def runTwoInterleaved (a1 a2 t1 t2 : String) (n1 n2 : Nat)
    (store : Storage) : Post × Post × Storage :=
  let r1 := submitReadPhase a1 t1 n1 store
  let r2 := submitReadPhase a2 t2 n2 r1.2
  let st3 := submitWritePhase r1.1 r2.2
  let st4 := submitWritePhase r2.1 st3
  (r1.1.post, r2.1.post, st4)

/-- Requests executed one after the other (serialized): each write half
completes before the next read half starts. -/
def runSequential (author : String) (now : Nat) :
    List String → Storage → List Post × Storage
  | [], store => ([], store)
  | t :: ts, store =>
    let r := submitReadPhase author t now store
    let st2 := submitWritePhase r.1 r.2
    (r.1.post :: (runSequential author now ts st2).1,
     (runSequential author now ts st2).2)

/-- An empty board that has already been initialized with an index
(`nextId = 1`, no entries). -/
def wEmptyStore : Storage :=
  { indexFile := some { nextId := 1, posts := [] }, postFiles := [],
    legacyFile := none }

/-- C9 counterexample: two valid concurrent submissions against an empty
board, interleaved so that both reads precede both writes, both allocate
`id = 1` - the code serializes nothing, so two concurrent writers can
compute the same id, contradicting the claim. -/
theorem C9_counterexample :
    (runTwoInterleaved "0xaaa" "0xbbb" "p1" "p2" 5 6 wEmptyStore).1.id = 1 ∧
    (runTwoInterleaved "0xaaa" "0xbbb" "p1" "p2" 5 6
        wEmptyStore).2.1.id = 1 :=
  ⟨rfl, rfl⟩

/-- Sequential submissions allocate consecutive ids starting at the stored
counter. -/
theorem runSequential_ids (author : String) (now : Nat) :
    ∀ (texts : List String) (store : Storage) (idx : IndexFile),
      store.indexFile = some idx → idx.nextId ≠ 0 →
      (runSequential author now texts store).1.map Post.id
        = List.range' idx.nextId texts.length := by
  intro texts
  induction texts with
  | nil => intro store idx hidx hnz; rfl
  | cons t ts ih =>
    intro store idx hidx hnz
    have hread : readData store
        = ({ posts := idx.posts.filterMap
              (fun meta => lookupPostFile store.postFiles meta.id),
             nextId := idx.nextId }, store) := by
      simp [readData, hidx, hnz]
    show (submitReadPhase author t now store).1.post.id
        :: (runSequential author now ts _).1.map Post.id = _
    simp only [List.length_cons]
    rw [List.range'_succ]
    have hid : (submitReadPhase author t now store).1.post.id
        = idx.nextId := by
      simp [submitReadPhase, hread]
    rw [hid, ih _ (writeDataIndex (submitReadPhase author t now store).1.data)
      rfl (by simp [submitReadPhase, hread, writeDataIndex])]
    simp [submitReadPhase, hread, writeDataIndex]

/-- C9 (amended): the code takes no per-tenant lock, so the claimed
serialization does not exist (see the counterexample); what holds is that
SEQUENTIAL submissions - each request finishing its writes before the next
reads - allocate exactly the ids `1..N` from an empty board, with no gaps
and no duplicates. -/
theorem C9_sequential_ids_complete (author : String) (now : Nat)
    (texts : List String) :
    (runSequential author now texts wEmptyStore).1.map Post.id
      = List.range' 1 texts.length ∧
    ((runSequential author now texts wEmptyStore).1.map Post.id).Nodup := by
  have h := runSequential_ids author now texts wEmptyStore
    { nextId := 1, posts := [] } rfl (by decide)
  exact ⟨h, by rw [h]; exact List.nodup_range' _ _⟩

/-! ## Claim C10: newest-first order -/

/-- The stored post list is strictly decreasing in id (newest first). -/
def postsSortedDesc (l : List Post) : Prop :=
  List.Pairwise (fun a b => b.id < a.id) l

/-- Every stored post's id is below the counter. -/
def postsInv (d : BoardData) : Prop :=
  postsSortedDesc d.posts ∧ ∀ p ∈ d.posts, p.id < d.nextId

/-- C10: the post collection is kept newest-first. The empty board satisfies
the order invariant; `submitPostRoute` preserves it (the new post takes
`id = nextId`, above every stored id, and is unshifted to the front); every
successful read returns a filtered copy of the stored list and is therefore
also strictly decreasing in id; and the index written by `writeData` lists
exactly the stored ids in the same order. -/
theorem C10_newest_first_order (channels : List Channel)
    (settings : ImageSettings) (sanitize : String → Option String)
    (client client2 : Option String) (oracle oracle2 : Oracle)
    (aclName : Option String) (now : Nat) (text : String)
    (image : Option String) (channel : Option String) (data : BoardData)
    (inACL : String → String → Bool) (q : Option String)
    (hinv : postsInv data) :
    postsInv { posts := [], nextId := 1 } ∧
    postsInv (submitPostRoute channels settings sanitize client oracle
      aclName now text image channel data).2 ∧
    (∀ l, listPostsRoute client2 oracle2 inACL channels q data = .ok l →
      postsSortedDesc l) ∧
    (writeDataIndex data).posts.map IndexEntry.id
      = data.posts.map Post.id := by
  refine ⟨⟨List.Pairwise.nil, by simp⟩, ?_, ?_, ?_⟩
  · unfold submitPostRoute
    split
    · exact hinv
    · split
      · exact hinv
      · split
        · exact hinv
        · split
          · exact hinv
          · next u lvl heq =>
            constructor
            · exact List.pairwise_cons.mpr ⟨fun b hb => hinv.2 b hb,
                hinv.1⟩
            · intro p hp
              rcases List.mem_cons.mp hp with rfl | hmem
              · exact Nat.lt_succ_self _
              · exact Nat.lt_succ_of_lt (hinv.2 p hmem)
  · intro l hl
    unfold listPostsRoute at hl
    split at hl
    · exact absurd hl (by simp)
    · rename_i x accessible heq
      have hfil : postsSortedDesc (data.posts.filter (fun p =>
          accessible.contains (match p.channel with
            | none => "general"
            | some s => if s = "" then "general" else s))) :=
        List.Pairwise.sublist (List.filter_sublist _) hinv.1
      split at hl
      · cases hl
        exact hfil
      · split at hl
        · cases hl
          exact hfil
        · split at hl
          · exact absurd hl (by simp)
          · split at hl
            · cases hl
              exact List.Pairwise.sublist (List.filter_sublist _) hfil
            · cases hl
              exact List.Pairwise.sublist (List.filter_sublist _) hfil
  · simp [writeDataIndex, indexEntryOf]

/-- A two-post board in newest-first order (ids 2 then 1). -/
def wSortedBoard : BoardData := { posts := [wPostB, wPostA], nextId := 3 }

/-- Witness for C10: the two-post newest-first board, one submission and one
unauthenticated read. -/
theorem C10_newest_first_order_witness :
    postsInv { posts := [], nextId := 1 } ∧
    postsInv (submitPostRoute [] { maxProcessedSize := 10, allowSvg := true }
      (fun _ => none) (some "0xabc") (.ok 2) none 7 "hey" none none
      wSortedBoard).2 ∧
    (∀ l, listPostsRoute none (.ok 0) (fun _ _ => false) [] none wSortedBoard
        = .ok l → postsSortedDesc l) ∧
    (writeDataIndex wSortedBoard).posts.map IndexEntry.id
      = wSortedBoard.posts.map Post.id :=
  C10_newest_first_order [] { maxProcessedSize := 10, allowSvg := true }
    (fun _ => none) (some "0xabc") none (.ok 2) (.ok 0) none 7 "hey" none
    none wSortedBoard (fun _ _ => false) none
    (by unfold postsInv postsSortedDesc; decide)
